import Mathlib

/-!
Verification development for the NSGA-II multi-objective transportation
optimizer in `src/train_optimization/optimization.py` (class
`MultiObjectiveOptimizer`) against its natural-language specification.

Modelling conventions (shallow embedding):
* Python floats are modelled as exact rationals `ℚ`; the crowding-distance
  values, which the source initialises to `0.0` and sets to `float("inf")`
  at front boundaries, are modelled as `WithTop ℚ` (`⊤` plays `inf`;
  `⊤ + q = ⊤` matches IEEE `inf + q = inf` for finite `q`).
* Python exceptions (the `IndexError` raised by an out-of-range list index,
  the `ValueError` raised by `min` of an empty sequence) are modelled with
  `Except String`.
* `random` calls are modelled by an explicit oracle `PyRandom` threaded
  through a state monad `Rand` that counts consumed random values; a
  `random.shuffle` result is an oracle-supplied permutation of its input.
* `datetime` values are modelled as integer minutes; `DurationField` /
  `timedelta` likewise as integer minutes.
-/

namespace TrainOpt

/-- `Train` model from `src/train_optimization/models.py` (the fields the
optimizer reads). `capacity` is a `PositiveIntegerField`,
`fuel_efficiency` and `maintenance_cost_per_km` are numeric fields. -/
structure Train where
  id : Int
  train_id : String
  capacity : Int
  fuel_efficiency : ℚ
  maintenance_cost_per_km : ℚ
  is_operational : Bool
  deriving DecidableEq, Inhabited

/-- `Route` model from `src/train_optimization/models.py` (fields the
optimizer reads). `estimated_travel_time` is a duration, in minutes. -/
structure Route where
  id : Int
  name : String
  distance : ℚ
  estimated_travel_time : Int
  is_active : Bool
  deriving DecidableEq, Inhabited

/-- A schedule dict as built by `_initialize_population`
(`{"train_id", "route_id", "departure_time", "arrival_time",
"passenger_load"}`); times are minutes. -/
structure ScheduleEntry where
  train_id : Int
  route_id : Int
  departure_time : Int
  arrival_time : Int
  passenger_load : Int
  deriving DecidableEq, Inhabited

/-- An individual of the population: the `"schedules"` list. The
`"train_assignments"` and `"route_utilization"` dicts of the source are
created empty and never read or written anywhere, so they are omitted. -/
structure Individual where
  schedules : List ScheduleEntry
  deriving DecidableEq, Inhabited

/-- `{train.id: train for train in trains}.get(tid)`: Python dict
comprehension keeps the LAST binding for a duplicated key, and `.get`
returns `None` when the key is absent. -/
def trainDictGet (trains : List Train) (tid : Int) : Option Train :=
  trains.reverse.find? (fun t => t.id == tid)

/-- `{route.id: route for route in routes}.get(rid)`, as `trainDictGet`. -/
def routeDictGet (routes : List Route) (rid : Int) : Option Route :=
  routes.reverse.find? (fun r => r.id == rid)

/-- `self.population_size` (set to 50 in `__init__`). -/
def population_size : Nat := 50

/-- `self.generations` (set to 100 in `__init__`). -/
def generations : Nat := 100

/-- `self.mutation_rate` (set to 0.1 in `__init__`). -/
def mutation_rate : ℚ := 1 / 10

/-- `self.crossover_rate` (set to 0.8 in `__init__`). -/
def crossover_rate : ℚ := 4 / 5

/-- `better_in_all = all(o1 <= o2 for o1, o2 in zip(obj1, obj2))` from
`_dominates`; `zip` truncates to the shorter tuple. -/
def better_in_all (obj1 obj2 : List ℚ) : Bool :=
  (obj1.zip obj2).all fun p => decide (p.1 ≤ p.2)

/-- `better_in_one = any(o1 < o2 for o1, o2 in zip(obj1, obj2))` from
`_dominates`. -/
def better_in_one (obj1 obj2 : List ℚ) : Bool :=
  (obj1.zip obj2).any fun p => decide (p.1 < p.2)

/-- `_dominates(obj1, obj2)`: obj1 dominates obj2 in the minimization
convention iff it is `<=` everywhere and `<` somewhere on the zipped
objectives. -/
def dominates (obj1 obj2 : List ℚ) : Bool :=
  better_in_all obj1 obj2 && better_in_one obj1 obj2

lemma better_in_one_self (a : List ℚ) : better_in_one a a = false := by
  induction a with
  | nil => rfl
  | cons x t ih =>
    simp only [better_in_one, List.zip_cons_cons, List.any_cons] at *
    simp [ih, lt_irrefl]

lemma dominates_self (a : List ℚ) : dominates a a = false := by
  simp [dominates, better_in_one_self]

lemma better_in_all_and_one_asymm :
    ∀ (a b : List ℚ), better_in_all a b = true → better_in_all b a = true →
      better_in_one a b = true → False := by
  intro a
  induction a with
  | nil => intro b _ _ h1; cases b <;> simp [better_in_one] at h1
  | cons x t ih =>
    intro b hab hba h1
    cases b with
    | nil => simp [better_in_one] at h1
    | cons y u =>
      simp only [better_in_all, better_in_one, List.zip_cons_cons, List.all_cons,
        List.any_cons, Bool.and_eq_true, Bool.or_eq_true, decide_eq_true_eq] at hab hba h1
      rcases h1 with hxy | h1
      · exact absurd hba.1 (not_le.mpr hxy)
      · exact ih u hab.2 hba.2 h1

lemma dominates_asymm (a b : List ℚ) (h : dominates a b = true) :
    dominates b a = false := by
  by_contra hcon
  have h2 : dominates b a = true := by
    cases h' : dominates b a
    · exact absurd h' hcon
    · rfl
  simp only [dominates, Bool.and_eq_true] at h h2
  exact better_in_all_and_one_asymm a b h.1 h2.1 h.2

lemma better_in_all_trans :
    ∀ (a b c : List ℚ), b.length = c.length →
      better_in_all a b = true → better_in_all b c = true →
      better_in_all a c = true := by
  intro a
  induction a with
  | nil => intro b c _ _ _; rfl
  | cons x t ih =>
    intro b c hlen hab hbc
    cases b with
    | nil => cases c with
      | nil => rfl
      | cons z v => simp at hlen
    | cons y u =>
      cases c with
      | nil => simp at hlen
      | cons z v =>
        simp only [List.length_cons, Nat.succ_inj] at hlen
        simp only [better_in_all, List.zip_cons_cons, List.all_cons,
          Bool.and_eq_true, decide_eq_true_eq] at hab hbc ⊢
        exact ⟨le_trans hab.1 hbc.1, ih u v hlen hab.2 hbc.2⟩

lemma better_in_one_le_trans :
    ∀ (a b c : List ℚ), b.length = c.length →
      better_in_one a b = true → better_in_all b c = true →
      better_in_one a c = true := by
  intro a
  induction a with
  | nil => intro b c _ h1 _; cases b <;> simp [better_in_one] at h1
  | cons x t ih =>
    intro b c hlen h1 hbc
    cases b with
    | nil => simp [better_in_one] at h1
    | cons y u =>
      cases c with
      | nil => simp at hlen
      | cons z v =>
        simp only [List.length_cons, Nat.succ_inj] at hlen
        simp only [better_in_one, better_in_all, List.zip_cons_cons, List.any_cons,
          List.all_cons, Bool.or_eq_true, Bool.and_eq_true, decide_eq_true_eq] at h1 hbc ⊢
        rcases h1 with hxy | h1
        · exact Or.inl (lt_of_lt_of_le hxy hbc.1)
        · exact Or.inr (ih u v hlen h1 hbc.2)

/-- C6: `_dominates` is irreflexive and asymmetric on objective 4-tuples:
`_dominates(A, A)` is `False`, and if `_dominates(A, B)` then
`_dominates(B, A)` is `False`. -/
theorem dominates_irrefl_and_asymm (a1 a2 a3 a4 b1 b2 b3 b4 : ℚ) :
    dominates [a1, a2, a3, a4] [a1, a2, a3, a4] = false ∧
      (dominates [a1, a2, a3, a4] [b1, b2, b3, b4] = true →
        dominates [b1, b2, b3, b4] [a1, a2, a3, a4] = false) :=
  ⟨dominates_self _, fun h => dominates_asymm _ _ h⟩

/-- Witness for C6 at concrete 4-tuples: `(0,0,0,0)` dominates
`(1,1,1,1)` and the asymmetry conclusion evaluates to `false`. -/
theorem dominates_irrefl_and_asymm_witness :
    dominates [(0 : ℚ), 0, 0, 0] [1, 1, 1, 1] = true ∧
      dominates [(1 : ℚ), 1, 1, 1] [0, 0, 0, 0] = false :=
  ⟨by decide,
    (dominates_irrefl_and_asymm 0 0 0 0 1 1 1 1).2 (by decide)⟩

/-- C10 (implicit): `_dominates` is transitive on equal-length objective
tuples; together with irreflexivity and asymmetry (C6) it is a strict
partial order on objective vectors. -/
theorem dominates_trans (a b c : List ℚ) (hab : a.length = b.length)
    (hbc : b.length = c.length) (h1 : dominates a b = true)
    (h2 : dominates b c = true) : dominates a c = true := by
  simp only [dominates, Bool.and_eq_true] at h1 h2 ⊢
  exact ⟨better_in_all_trans a b c hbc h1.1 h2.1,
    better_in_one_le_trans a b c hbc h1.2 h2.1⟩

/-- Witness for C10 at concrete 4-tuples. -/
theorem dominates_trans_witness :
    dominates [(0 : ℚ), 0, 0, 0] [2, 2, 2, 2] = true :=
  dominates_trans [0, 0, 0, 0] [1, 1, 1, 1] [2, 2, 2, 2] rfl rfl
    (by decide) (by decide)

/-- `dominated_solutions[i]` as computed by the first pass of
`_non_dominated_sort`: the `j ≠ i` (in increasing loop order) with
`_dominates(objective_values[i], objective_values[j])`. -/
def dominated_solutions (objs : List (List ℚ)) (i : Nat) : List Nat :=
  (List.range objs.length).filter fun j =>
    decide (i ≠ j) && dominates (objs.getD i []) (objs.getD j [])

/-- `domination_count[i]` as computed by the first pass of
`_non_dominated_sort`: the number of `j ≠ i` with
`_dominates(objective_values[j], objective_values[i])`. -/
def domination_count (objs : List (List ℚ)) (i : Nat) : Nat :=
  ((List.range objs.length).filter fun j =>
    decide (i ≠ j) && dominates (objs.getD j []) (objs.getD i [])).length

/-- `fronts[0]` after the first pass of `_non_dominated_sort`: the `i`
(in increasing order) whose domination count is zero. -/
def initial_front (objs : List (List ℚ)) : List Nat :=
  (List.range objs.length).filter fun i => domination_count objs i == 0

/-- One decrement step of the peeling loop body of `_non_dominated_sort`:
`domination_count[j] -= 1; if domination_count[j] == 0: next_front.append(j)`.
The state is `(domination_count, next_front)`; counts are `Int` as in
Python (they may in principle go negative). -/
def peelStep (st : List Int × List Nat) (j : Nat) : List Int × List Nat :=
  let counts := st.1.set j (st.1.getD j 0 - 1)
  if counts.getD j 0 == 0 then (counts, st.2 ++ [j]) else (counts, st.2)

/-- The `while fronts[current_front]:` peeling loop of
`_non_dominated_sort`, with the Python list index modelled exactly: when
`current_front` runs past the end of `fronts`, evaluating the loop
condition raises `IndexError`.  `fuel` bounds the recursion (the source
loop performs at most `|population| + 1` iterations before either
terminating or raising). -/
def peelFronts (dominated : Nat → List Nat) :
    Nat → List Int → List (List Nat) → Nat → Except String (List (List Nat))
  | 0, _, _, _ => Except.error "FUEL"
  | fuel + 1, counts, fronts, current_front =>
    match fronts.get? current_front with
    | none => Except.error "IndexError"
    | some front =>
      if front.isEmpty then Except.ok fronts
      else
        let st := front.foldl (fun st i => (dominated i).foldl peelStep st) (counts, [])
        let fronts2 := if st.2.isEmpty then fronts else fronts ++ [st.2]
        peelFronts dominated fuel st.1 fronts2 (current_front + 1)

/-- `_non_dominated_sort(objective_values)`: first pass computes
domination counts, dominated sets and `fronts[0]`; the peeling loop then
extracts the remaining fronts.  Returns `Except.error "IndexError"` when
the loop condition indexes past the end of `fronts` (which the source
does after the last front, because it appends `next_front` only when it
is non-empty). -/
def non_dominated_sort (objs : List (List ℚ)) : Except String (List (List Nat)) :=
  peelFronts (dominated_solutions objs) (objs.length + 2)
    ((List.range objs.length).map fun i => (domination_count objs i : Int))
    [initial_front objs] 0

/-- C1: the claim says `_non_dominated_sort` returns a partition of the
population indices for every input; in fact, for every NON-EMPTY list of
objective vectors the peeling loop raises `IndexError` (after the last
front is processed, `next_front` is empty so nothing is appended, yet
`current_front` is incremented and the `while fronts[current_front]`
condition indexes one past the end of `fronts`).  Here the code is
evaluated at the failing input `[(1.0, 1.0, 1.0, 1.0)]`: a single
individual, whose partition would be `[[0]]`. -/
theorem non_dominated_sort_raises_on_singleton :
    non_dominated_sort [[(1 : ℚ), 1, 1, 1]] = Except.error "IndexError" := by
  rfl

/-- C2: the claim describes the front structure (front 0 pairwise
non-dominating, later fronts dominated by earlier ones) of the fronts
returned by `_non_dominated_sort`; no fronts are ever returned for a
non-empty population because the peeling loop raises `IndexError`.  Here
the code is evaluated at a failing input with two individuals where
index 0 dominates index 1, so the expected fronts would be `[[0], [1]]`. -/
theorem non_dominated_sort_raises_on_dominated_pair :
    non_dominated_sort [[(0 : ℚ), 0, 0, 0], [1, 1, 1, 1]] =
      Except.error "IndexError" := by
  rfl

/-- Oracle for the (unseeded) `random` module: `stream` supplies the raw
uniform integers behind `randint` / `choice`, `shuffled k l` is the
permutation `random.shuffle` produces for list `l` at the `k`-th
consumption index (always a permutation of `l`), `gauss` the
`Normal(2, 5)` delay samples, and `rfloat` the `random.random()` /
`random.uniform` unit samples. -/
structure PyRandom where
  stream : Nat → Nat
  shuffled : Nat → List ScheduleEntry → List ScheduleEntry
  shuffled_perm : ∀ k l, (shuffled k l).Perm l
  gauss : Nat → ℚ
  rfloat : Nat → ℚ

/-- State monad threading the oracle and a counter of consumed random
values through the optimizer. -/
def Rand (α : Type) : Type := PyRandom → Nat → α × Nat

instance : Monad Rand where
  pure a := fun _ k => (a, k)
  bind m f := fun g k => let r := m g k; f r.1 g r.2

/-- `random.randint(a, b)`: an integer in `[a, b]` (both ends included;
the source only calls it with `a ≤ b`). -/
def randint (a b : Int) : Rand Int :=
  fun g k => (a + (g.stream k : Int) % (b - a + 1), k + 1)

/-- `random.choice(l)` (the source only calls it on non-empty lists). -/
def choice {α : Type} [Inhabited α] (l : List α) : Rand α :=
  fun g k => (l.getD (g.stream k % l.length) default, k + 1)

/-- `random.random()`. -/
def randomFloat : Rand ℚ :=
  fun g k => (g.rfloat k, k + 1)

/-- `random.uniform(a, b) = a + (b - a) * random.random()`. -/
def uniform (a b : ℚ) : Rand ℚ :=
  fun g k => (a + (b - a) * g.rfloat k, k + 1)

/-- `random.shuffle(l)` (as the resulting list). -/
def shuffle (l : List ScheduleEntry) : Rand (List ScheduleEntry) :=
  fun g k => (g.shuffled k l, k + 1)

/-- One `Normal(2, 5)` delay sample (`np.random.normal(2, 5)` or the
`random.gauss(2, 5)` fallback of `_calculate_on_time_performance`). -/
def gaussSample : Rand ℚ :=
  fun g k => (g.gauss k, k + 1)

/-- `random.sample(range(n), 2)`: two distinct indices below `n`
(the source calls it with `n ≥ 2`). -/
def sampleTwo (n : Nat) : Rand (Nat × Nat) := do
  let k1 ← randint 0 ((n : Int) - 1)
  let k2 ← randint 0 ((n : Int) - 2)
  let i1 := k1.toNat
  let i2 := if k2.toNat ≥ i1 then k2.toNat + 1 else k2.toNat
  return (i1, i2)

/-- `_calculate_fuel_consumption(individual, trains, routes)`: fold over
the schedules accumulating `route.distance / train.fuel_efficiency` for
the entries whose train and route ids both resolve. -/
def calculate_fuel_consumption (individual : Individual) (trains : List Train)
    (routes : List Route) : ℚ :=
  individual.schedules.foldl
    (fun total_fuel schedule =>
      match trainDictGet trains schedule.train_id,
            routeDictGet routes schedule.route_id with
      | some train, some route => total_fuel + route.distance / train.fuel_efficiency
      | _, _ => total_fuel)
    0

/-- `_calculate_on_time_performance(individual)`: the percentage of
schedules whose simulated delay `max(0, Normal(2, 5))` is `≤ 5` minutes;
`0.0` for an empty schedule list. -/
def calculate_on_time_performance (individual : Individual) : Rand ℚ := do
  if individual.schedules = [] then
    return 0
  let total_schedules := individual.schedules.length
  let mut on_time_count : Nat := 0
  for _ in individual.schedules do
    let sample ← gaussSample
    let delay_minutes := max 0 sample
    if delay_minutes ≤ 5 then
      on_time_count := on_time_count + 1
  return ((on_time_count : ℚ) / (total_schedules : ℚ)) * 100

/-- `_calculate_operational_costs(individual, trains, routes)`:
maintenance cost per km times distance plus fuel cost at 1.5 per liter,
for the entries whose train and route ids both resolve. -/
def calculate_operational_costs (individual : Individual) (trains : List Train)
    (routes : List Route) : ℚ :=
  individual.schedules.foldl
    (fun total_cost schedule =>
      match trainDictGet trains schedule.train_id,
            routeDictGet routes schedule.route_id with
      | some train, some route =>
          total_cost + (train.maintenance_cost_per_km * route.distance +
            route.distance / train.fuel_efficiency * (3 / 2))
      | _, _ => total_cost)
    0

/-- `_calculate_capacity_utilization(individual, trains)`: `0.0` for an
empty schedule list, otherwise the accumulated
`passenger_load / capacity * 100` of the entries whose train id
resolves, divided by the TOTAL number of schedule entries. -/
def calculate_capacity_utilization (individual : Individual)
    (trains : List Train) : ℚ :=
  if individual.schedules = [] then 0
  else
    (individual.schedules.foldl
      (fun total_utilization schedule =>
        match trainDictGet trains schedule.train_id with
        | some train =>
            total_utilization +
              (schedule.passenger_load : ℚ) / (train.capacity : ℚ) * 100
        | none => total_utilization)
      0) / (individual.schedules.length : ℚ)

/-- `_evaluate_objectives(individual, trains, routes)`: the minimization
4-tuple `(fuel, -on_time, costs, -utilization)` (as a 4-element list). -/
def evaluate_objectives (individual : Individual) (trains : List Train)
    (routes : List Route) : Rand (List ℚ) := do
  let fuel_consumption := calculate_fuel_consumption individual trains routes
  let on_time_performance ← calculate_on_time_performance individual
  let operational_costs := calculate_operational_costs individual trains routes
  let capacity_utilization := calculate_capacity_utilization individual trains
  return [fuel_consumption, -on_time_performance, operational_costs,
    -capacity_utilization]

/-- `_crossover(parent1, parent2)`: pools both parents' schedule lists,
shuffles the pool, and splits it at `len(all_schedules) // 2` into the
two children (the split point is computed before the in-place shuffle,
which does not change the length). -/
def crossover (parent1 parent2 : Individual) : Rand (Individual × Individual) := do
  let all_schedules := parent1.schedules ++ parent2.schedules
  let split_point := all_schedules.length / 2
  let shuffled ← shuffle all_schedules
  return (⟨shuffled.take split_point⟩, ⟨shuffled.drop split_point⟩)

/-- `_mutate(individual)`: picks one of three mutation types; only
`"time_shift"` (shift one entry by a random ±30 minutes) and
`"train_swap"` (swap the train ids of two sampled entries, when at least
two exist) change anything; `"route_change"` has no branch.  The source
mutates schedule dicts in place through a shallow `copy()`; the pure
model returns the updated individual. -/
def mutate (individual : Individual) : Rand Individual := do
  if individual.schedules = [] then
    return individual
  let mutation_type ← choice ["time_shift", "train_swap", "route_change"]
  if mutation_type = "time_shift" then
    let idx ← randint 0 ((individual.schedules.length : Int) - 1)
    let time_shift ← randint (-30) 30
    let i := idx.toNat
    let s := individual.schedules.getD i default
    let s2 := { s with departure_time := s.departure_time + time_shift,
                       arrival_time := s.arrival_time + time_shift }
    return ⟨individual.schedules.set i s2⟩
  else if mutation_type = "train_swap" then
    if individual.schedules.length ≥ 2 then
      let (i1, i2) ← sampleTwo individual.schedules.length
      let s1 := individual.schedules.getD i1 default
      let s2 := individual.schedules.getD i2 default
      let l1 := individual.schedules.set i1 { s1 with train_id := s2.train_id }
      return ⟨l1.set i2 { s2 with train_id := s1.train_id }⟩
    else
      return individual
  else
    return individual

/-- `_generate_offspring(population)`: `len(population) // 2` rounds of
parent choice, probabilistic crossover (else shallow copies of the
parents) and probabilistic mutation, two children per round. -/
def generate_offspring (population : List Individual) : Rand (List Individual) := do
  let mut offspring : List Individual := []
  for _ in List.range (population.length / 2) do
    let parent1 ← choice population
    let parent2 ← choice population
    let r ← randomFloat
    let children ←
      if r < crossover_rate then crossover parent1 parent2
      else pure (parent1, parent2)
    let r1 ← randomFloat
    let child1 ← if r1 < mutation_rate then mutate children.1 else pure children.1
    let r2 ← randomFloat
    let child2 ← if r2 < mutation_rate then mutate children.2 else pure children.2
    offspring := offspring ++ [child1, child2]
  return offspring

lemma foldl_accum_eq_sum {α : Type} (f : α → ℚ) (g : ℚ → α → ℚ)
    (hg : ∀ acc x, g acc x = acc + f x) :
    ∀ (l : List α) (init : ℚ), l.foldl g init = init + (l.map f).sum := by
  intro l
  induction l with
  | nil => intro init; simp
  | cons x t ih =>
    intro init
    simp only [List.foldl_cons, List.map_cons, List.sum_cons, hg, ih, add_assoc]

/-- The per-entry fuel contribution claimed by the spec:
`route.distance / train.fuel_efficiency` when both references resolve,
nothing otherwise. -/
def fuelContribution (trains : List Train) (routes : List Route)
    (s : ScheduleEntry) : ℚ :=
  match trainDictGet trains s.train_id, routeDictGet routes s.route_id with
  | some train, some route => route.distance / train.fuel_efficiency
  | _, _ => 0

/-- C7: `_calculate_fuel_consumption` returns the sum over the schedule
entries of `route.distance / train.fuel_efficiency`, an entry whose
train or route reference does not resolve contributing nothing, and an
empty schedule list yielding `0.0`.  (In the exact rational model the
function is total; in Python a RESOLVED train with
`fuel_efficiency == 0.0` would raise `ZeroDivisionError`, a case outside
both the claim and the model.) -/
theorem calculate_fuel_consumption_spec (individual : Individual)
    (trains : List Train) (routes : List Route) :
    calculate_fuel_consumption individual trains routes =
      (individual.schedules.map (fuelContribution trains routes)).sum ∧
      (individual.schedules = [] →
        calculate_fuel_consumption individual trains routes = 0) := by
  have hmain : calculate_fuel_consumption individual trains routes =
      (individual.schedules.map (fuelContribution trains routes)).sum := by
    have h := foldl_accum_eq_sum (fuelContribution trains routes)
      (fun total_fuel schedule =>
        match trainDictGet trains schedule.train_id,
              routeDictGet routes schedule.route_id with
        | some train, some route =>
            total_fuel + route.distance / train.fuel_efficiency
        | _, _ => total_fuel)
      (by
        intro acc x
        unfold fuelContribution
        cases htr : trainDictGet trains x.train_id <;>
          cases hro : routeDictGet routes x.route_id <;> simp [htr, hro])
      individual.schedules 0
    simpa [calculate_fuel_consumption] using h
  exact ⟨hmain, fun he => by simp [hmain, he]⟩

/-- Witness for C7: a schedule with one resolving and one dangling entry;
the dangling entry is skipped and the result is `40 / 10 = 4`. -/
theorem calculate_fuel_consumption_spec_witness :
    calculate_fuel_consumption
      ⟨[⟨1, 1, 0, 30, 100⟩, ⟨2, 1, 0, 30, 100⟩]⟩
      [⟨1, "T1", 200, 10, 2, true⟩] [⟨1, "R1", 40, 30, true⟩] = 4 :=
  (calculate_fuel_consumption_spec
      ⟨[⟨1, 1, 0, 30, 100⟩, ⟨2, 1, 0, 30, 100⟩]⟩
      [⟨1, "T1", 200, 10, 2, true⟩] [⟨1, "R1", 40, 30, true⟩]).1.trans
    (by norm_num [fuelContribution, trainDictGet, routeDictGet])

/-- The per-entry utilization contribution claimed by the spec:
`passenger_load / capacity * 100` when the train reference resolves,
nothing otherwise. -/
def utilizationContribution (trains : List Train) (s : ScheduleEntry) : ℚ :=
  match trainDictGet trains s.train_id with
  | some train => (s.passenger_load : ℚ) / (train.capacity : ℚ) * 100
  | none => 0

/-- C8: for a non-empty schedule list `_calculate_capacity_utilization`
returns the mean of `passenger_load / capacity * 100` over the entries
(an entry whose train reference does not resolve is skipped silently,
i.e. contributes nothing to the numerator while still counting in the
denominator), and for an empty schedule list it returns `0.0`. -/
theorem calculate_capacity_utilization_spec (individual : Individual)
    (trains : List Train) :
    (individual.schedules ≠ [] →
      calculate_capacity_utilization individual trains =
        (individual.schedules.map (utilizationContribution trains)).sum /
          (individual.schedules.length : ℚ)) ∧
      (individual.schedules = [] →
        calculate_capacity_utilization individual trains = 0) := by
  constructor
  · intro hne
    have h := foldl_accum_eq_sum (utilizationContribution trains)
      (fun total_utilization schedule =>
        match trainDictGet trains schedule.train_id with
        | some train =>
            total_utilization +
              (schedule.passenger_load : ℚ) / (train.capacity : ℚ) * 100
        | none => total_utilization)
      (by
        intro acc x
        unfold utilizationContribution
        cases htr : trainDictGet trains x.train_id <;> simp [htr])
      individual.schedules 0
    simp only [calculate_capacity_utilization, if_neg hne]
    rw [h]
    simp
  · intro he
    simp [calculate_capacity_utilization, he]

/-- Witness for C8: one resolved entry at 50% utilization and one
dangling entry; the mean over both entries is `(50 + 0) / 2 = 25`. -/
theorem calculate_capacity_utilization_spec_witness :
    calculate_capacity_utilization
      ⟨[⟨1, 1, 0, 30, 100⟩, ⟨2, 1, 0, 30, 100⟩]⟩
      [⟨1, "T1", 200, 10, 2, true⟩] = 25 :=
  ((calculate_capacity_utilization_spec
      ⟨[⟨1, 1, 0, 30, 100⟩, ⟨2, 1, 0, 30, 100⟩]⟩
      [⟨1, "T1", 200, 10, 2, true⟩]).1 (by decide)).trans
    (by norm_num [utilizationContribution, trainDictGet])

/-- C9: for all parents and every permutation chosen by the shuffle,
`_crossover` returns two children whose schedule lists concatenate to a
permutation of the parents' concatenated schedule lists, the first child
receiving exactly `(|p1| + |p2|) / 2` (floor) entries and the second the
remainder. -/
theorem crossover_spec (parent1 parent2 : Individual) (g : PyRandom) (k : Nat) :
    (((crossover parent1 parent2 g k).1.1.schedules ++
        (crossover parent1 parent2 g k).1.2.schedules).Perm
      (parent1.schedules ++ parent2.schedules)) ∧
      (crossover parent1 parent2 g k).1.1.schedules.length =
        (parent1.schedules.length + parent2.schedules.length) / 2 ∧
      (crossover parent1 parent2 g k).1.2.schedules.length =
        (parent1.schedules.length + parent2.schedules.length) -
          (parent1.schedules.length + parent2.schedules.length) / 2 := by
  have hred : crossover parent1 parent2 g k =
      ((⟨(g.shuffled k (parent1.schedules ++ parent2.schedules)).take
          ((parent1.schedules ++ parent2.schedules).length / 2)⟩,
        ⟨(g.shuffled k (parent1.schedules ++ parent2.schedules)).drop
          ((parent1.schedules ++ parent2.schedules).length / 2)⟩), k + 1) := rfl
  have hperm := g.shuffled_perm k (parent1.schedules ++ parent2.schedules)
  have hlen : (g.shuffled k (parent1.schedules ++ parent2.schedules)).length =
      parent1.schedules.length + parent2.schedules.length := by
    simpa [List.length_append] using hperm.length_eq
  refine ⟨?_, ?_, ?_⟩
  · rw [hred]
    simpa [List.take_append_drop] using hperm
  · rw [hred]
    simp only [List.length_take, hlen, List.length_append]
    exact Nat.min_eq_left (Nat.div_le_self _ _)
  · rw [hred]
    simp [List.length_drop, hlen]

/-- `objectives[x][m]`, the sort key `lambda x: objectives[x][m]` of
`_calculate_crowding_distance` (total via defaults; callers keep
`x < len(objectives)` and `m < len(objectives[x])`). -/
def sortKey (objectives : List (List ℚ)) (m : Nat) (x : Nat) : ℚ :=
  (objectives.getD x []).getD m 0

/-- `sorted(range(n), key=lambda x: objectives[x][m])`: Python's `sorted`
is a stable sort, and a stable sort is uniquely determined, so the
(stable) insertion sort by the key computes it. -/
def sortedIndices (objectives : List (List ℚ)) (m : Nat) : List Nat :=
  List.insertionSort (fun a b => sortKey objectives m a ≤ sortKey objectives m b)
    (List.range objectives.length)

/-- `distances[p] += delta` (float accumulation; `inf + delta = inf`). -/
def addAt (distances : List (WithTop ℚ)) (p : Nat) (delta : ℚ) :
    List (WithTop ℚ) :=
  distances.set p (distances.getD p 0 + (delta : WithTop ℚ))

/-- One iteration `m` of the per-objective loop of
`_calculate_crowding_distance`: sort the indices by objective `m`, set
the two boundary entries of `distances` to `inf`, and when the objective
range is positive accumulate the normalised neighbour gaps on the
interior entries (`for i in range(1, n - 1)`, shifted here to
`i in range(n - 2)` acting on sorted position `i + 1`). -/
def crowdingPass (objectives : List (List ℚ)) (m : Nat)
    (distances : List (WithTop ℚ)) : List (WithTop ℚ) :=
  let n := objectives.length
  let s := sortedIndices objectives m
  let d2 := (distances.set (s.getD 0 0) ⊤).set (s.getD (n - 1) 0) ⊤
  let obj_range := sortKey objectives m (s.getD (n - 1) 0) -
    sortKey objectives m (s.getD 0 0)
  if 0 < obj_range then
    (List.range (n - 2)).foldl
      (fun dd i =>
        addAt dd (s.getD (i + 1) 0)
          ((sortKey objectives m (s.getD (i + 2) 0) -
            sortKey objectives m (s.getD i 0)) / obj_range))
      d2
  else d2

/-- `_calculate_crowding_distance(objectives)`: `[inf] * n` when
`n <= 2`, otherwise the accumulation of `crowdingPass` over the
`len(objectives[0])` objective dimensions starting from `[0.0] * n`. -/
def calculate_crowding_distance (objectives : List (List ℚ)) :
    List (WithTop ℚ) :=
  let n := objectives.length
  if n ≤ 2 then List.replicate n ⊤
  else
    let n_objectives := (objectives.getD 0 []).length
    (List.range n_objectives).foldl
      (fun distances m => crowdingPass objectives m distances)
      (List.replicate n (0 : WithTop ℚ))

lemma foldl_preserve {α β : Type} (P : β → Prop) {f : β → α → β}
    (hf : ∀ b a, P b → P (f b a)) :
    ∀ (l : List α) (b : β), P b → P (l.foldl f b) := by
  intro l
  induction l with
  | nil => intro b hb; exact hb
  | cons x t ih => intro b hb; exact ih (f b x) (hf b x hb)

lemma getD_as_getElem? (l : List (WithTop ℚ)) (p : Nat) :
    l.getD p 0 = (l[p]?).getD 0 := by
  rw [List.getD_eq_getD_get?, List.get?_eq_getElem?]

lemma getD_top_lt_length {l : List (WithTop ℚ)} {p : Nat}
    (h : l.getD p 0 = ⊤) : p < l.length := by
  by_contra hc
  rw [List.getD_eq_default _ _ (le_of_not_lt hc)] at h
  exact WithTop.zero_ne_top h

lemma set_getD_self_top {l : List (WithTop ℚ)} {p : Nat} (hp : p < l.length) :
    (l.set p ⊤).getD p 0 = ⊤ := by
  rw [getD_as_getElem?, List.getElem?_set_eq_of_lt _ hp]
  rfl

lemma getD_set_top_preserve {l : List (WithTop ℚ)} {q p : Nat}
    (h : l.getD p 0 = ⊤) : (l.set q ⊤).getD p 0 = ⊤ := by
  by_cases hqp : q = p
  · subst hqp
    exact set_getD_self_top (getD_top_lt_length h)
  · rw [getD_as_getElem?, List.getElem?_set_ne hqp, ← getD_as_getElem?]
    exact h

lemma addAt_top_preserve {l : List (WithTop ℚ)} {q p : Nat} {delta : ℚ}
    (h : l.getD p 0 = ⊤) : (addAt l q delta).getD p 0 = ⊤ := by
  unfold addAt
  by_cases hqp : q = p
  · subst hqp
    rw [getD_as_getElem?, List.getElem?_set_eq_of_lt _ (getD_top_lt_length h)]
    simp only [Option.getD_some]
    rw [h]
    exact WithTop.top_add _
  · rw [getD_as_getElem?, List.getElem?_set_ne hqp, ← getD_as_getElem?]
    exact h

lemma addAt_length (l : List (WithTop ℚ)) (p : Nat) (delta : ℚ) :
    (addAt l p delta).length = l.length :=
  List.length_set l p _

lemma crowdingPass_length (o : List (List ℚ)) (m : Nat) (l : List (WithTop ℚ)) :
    (crowdingPass o m l).length = l.length := by
  unfold crowdingPass
  dsimp only
  split
  · refine foldl_preserve (fun b : List (WithTop ℚ) => b.length = l.length) ?_ _ _ ?_
    · intro b a hb
      rw [addAt_length]
      exact hb
    · simp [List.length_set]
  · simp [List.length_set]

lemma crowdingPass_top_preserve (o : List (List ℚ)) (m : Nat)
    {l : List (WithTop ℚ)} {p : Nat} (h : l.getD p 0 = ⊤) :
    (crowdingPass o m l).getD p 0 = ⊤ := by
  unfold crowdingPass
  dsimp only
  split
  · exact foldl_preserve (fun b : List (WithTop ℚ) => b.getD p 0 = ⊤)
      (fun b a hb => addAt_top_preserve hb) _ _
      (getD_set_top_preserve (getD_set_top_preserve h))
  · exact getD_set_top_preserve (getD_set_top_preserve h)

lemma sortedIndices_perm (o : List (List ℚ)) (m : Nat) :
    (sortedIndices o m).Perm (List.range o.length) :=
  List.perm_insertionSort _ _

lemma sortedIndices_length (o : List (List ℚ)) (m : Nat) :
    (sortedIndices o m).length = o.length := by
  simpa using (sortedIndices_perm o m).length_eq

lemma sortedIndices_sorted (o : List (List ℚ)) (m : Nat) :
    (sortedIndices o m).Sorted (fun a b => sortKey o m a ≤ sortKey o m b) := by
  haveI : IsTotal Nat (fun a b => sortKey o m a ≤ sortKey o m b) :=
    ⟨fun a b => le_total _ _⟩
  haveI : IsTrans Nat (fun a b => sortKey o m a ≤ sortKey o m b) :=
    ⟨fun a b c hab hbc => le_trans hab hbc⟩
  exact List.sorted_insertionSort _ _

lemma sortedIndices_getD_lt (o : List (List ℚ)) (m pos : Nat)
    (hpos : pos < o.length) : (sortedIndices o m).getD pos 0 < o.length := by
  have hlen : pos < (sortedIndices o m).length := by rwa [sortedIndices_length]
  have hmem : (sortedIndices o m).getD pos 0 ∈ sortedIndices o m := by
    rw [List.getD_eq_getElem _ _ hlen]
    exact List.getElem_mem hlen
  have hr := (sortedIndices_perm o m).mem_iff.mp hmem
  exact List.mem_range.mp hr

lemma sortedIndices_head_min (o : List (List ℚ)) (m j : Nat)
    (hj : j < o.length) :
    sortKey o m ((sortedIndices o m).getD 0 0) ≤ sortKey o m j := by
  have hmem : j ∈ sortedIndices o m :=
    (sortedIndices_perm o m).mem_iff.mpr (List.mem_range.mpr hj)
  have hsort := sortedIndices_sorted o m
  rcases hs : sortedIndices o m with _ | ⟨h0, t⟩
  · rw [hs] at hmem
    simp at hmem
  · rw [hs] at hmem hsort
    rcases List.mem_cons.mp hmem with rfl | hmem2
    · simp
    · simpa using List.rel_of_sorted_cons hsort j hmem2

lemma sorted_key_le_last (key : Nat → ℚ) :
    ∀ (l : List Nat), l.Sorted (fun a b => key a ≤ key b) →
      ∀ x ∈ l, key x ≤ key (l.getD (l.length - 1) 0) := by
  intro l
  induction l with
  | nil => intro _ x hx; simp at hx
  | cons h0 t ih =>
    intro hsort x hx
    cases t with
    | nil =>
      rcases List.mem_singleton.mp hx with rfl
      simp
    | cons h1 t1 =>
      have hlen : (h0 :: h1 :: t1).length - 1 = ((h1 :: t1).length - 1) + 1 := by
        simp
      rw [hlen, List.getD_cons_succ]
      rcases List.mem_cons.mp hx with rfl | hx2
      · have hmem : (h1 :: t1).getD ((h1 :: t1).length - 1) 0 ∈ (h1 :: t1) := by
          have hlt : (h1 :: t1).length - 1 < (h1 :: t1).length := by simp
          rw [List.getD_eq_getElem _ _ hlt]
          exact List.getElem_mem hlt
        exact List.rel_of_sorted_cons hsort _ hmem
      · exact ih hsort.of_cons x hx2

lemma sortedIndices_last_max (o : List (List ℚ)) (m j : Nat)
    (hj : j < o.length) :
    sortKey o m j ≤
      sortKey o m ((sortedIndices o m).getD (o.length - 1) 0) := by
  have hmem : j ∈ sortedIndices o m :=
    (sortedIndices_perm o m).mem_iff.mpr (List.mem_range.mpr hj)
  have hle := sorted_key_le_last (sortKey o m) (sortedIndices o m)
    (sortedIndices_sorted o m) j hmem
  rwa [sortedIndices_length] at hle

lemma crowdingPass_boundary (o : List (List ℚ)) (m : Nat)
    {l : List (WithTop ℚ)} (hlen : l.length = o.length)
    (hne : 0 < o.length) :
    (crowdingPass o m l).getD ((sortedIndices o m).getD 0 0) 0 = ⊤ ∧
      (crowdingPass o m l).getD
        ((sortedIndices o m).getD (o.length - 1) 0) 0 = ⊤ := by
  have h0lt : (sortedIndices o m).getD 0 0 < l.length := by
    rw [hlen]
    exact sortedIndices_getD_lt o m 0 hne
  have hllt : (sortedIndices o m).getD (o.length - 1) 0 < l.length := by
    rw [hlen]
    exact sortedIndices_getD_lt o m (o.length - 1) (Nat.sub_lt hne one_pos)
  have hfirst : ((l.set ((sortedIndices o m).getD 0 0) ⊤).set
      ((sortedIndices o m).getD (o.length - 1) 0) ⊤).getD
        ((sortedIndices o m).getD 0 0) 0 = ⊤ :=
    getD_set_top_preserve (set_getD_self_top h0lt)
  have hlast : ((l.set ((sortedIndices o m).getD 0 0) ⊤).set
      ((sortedIndices o m).getD (o.length - 1) 0) ⊤).getD
        ((sortedIndices o m).getD (o.length - 1) 0) 0 = ⊤ :=
    set_getD_self_top (by rw [List.length_set]; exact hllt)
  unfold crowdingPass
  dsimp only
  constructor
  · split
    · exact foldl_preserve
        (fun b : List (WithTop ℚ) => b.getD ((sortedIndices o m).getD 0 0) 0 = ⊤)
        (fun b a hb => addAt_top_preserve hb) _ _ hfirst
    · exact hfirst
  · split
    · exact foldl_preserve
        (fun b : List (WithTop ℚ) =>
          b.getD ((sortedIndices o m).getD (o.length - 1) 0) 0 = ⊤)
        (fun b a hb => addAt_top_preserve hb) _ _ hlast
    · exact hlast

lemma foldl_pass_top (o : List (List ℚ)) (p : Nat) (ms : List Nat)
    (l : List (WithTop ℚ)) (h : l.getD p 0 = ⊤) :
    (ms.foldl (fun distances m => crowdingPass o m distances) l).getD p 0 = ⊤ :=
  foldl_preserve (fun b : List (WithTop ℚ) => b.getD p 0 = ⊤)
    (fun b a hb => crowdingPass_top_preserve o a hb) ms l h

lemma foldl_pass_length (o : List (List ℚ)) (ms : List Nat)
    (l : List (WithTop ℚ)) :
    (ms.foldl (fun distances m => crowdingPass o m distances) l).length =
      l.length :=
  foldl_preserve (fun b : List (WithTop ℚ) => b.length = l.length)
    (fun b a hb => by
      show (crowdingPass o a b).length = l.length
      rw [crowdingPass_length]
      exact hb) ms l rfl

lemma exists_min_index (f : Nat → ℚ) :
    ∀ (n : Nat), 0 < n → ∃ i, i < n ∧ ∀ j, j < n → f i ≤ f j := by
  intro n
  induction n with
  | zero => intro h; exact absurd h (lt_irrefl 0)
  | succ k ih =>
    intro _
    rcases Nat.eq_zero_or_pos k with rfl | hk
    · refine ⟨0, Nat.zero_lt_one, fun j hj => ?_⟩
      interval_cases j
      exact le_refl _
    · obtain ⟨i, hi, hmin⟩ := ih hk
      by_cases hc : f i ≤ f k
      · refine ⟨i, Nat.lt_succ_of_lt hi, fun j hj => ?_⟩
        rcases Nat.lt_succ_iff_lt_or_eq.mp hj with hj2 | rfl
        · exact hmin j hj2
        · exact hc
      · refine ⟨k, Nat.lt_succ_self k, fun j hj => ?_⟩
        rcases Nat.lt_succ_iff_lt_or_eq.mp hj with hj2 | rfl
        · exact le_trans (le_of_not_le hc) (hmin j hj2)
        · exact le_refl _

lemma forall_getD_of_forall_lt {P : List ℚ → Prop} (L : List (List ℚ))
    (h : ∀ idx, idx < L.length → P (L.getD idx [])) : ∀ l ∈ L, P l := by
  intro l hl
  obtain ⟨idx, hidx, heq⟩ := List.mem_iff_getElem.mp hl
  have hP := h idx hidx
  rwa [List.getD_eq_getElem _ _ hidx, heq] at hP

lemma getD_replicate_top {n i : Nat} (h : i < n) :
    (List.replicate n (⊤ : WithTop ℚ)).getD i 0 = ⊤ := by
  have hlen : i < (List.replicate n (⊤ : WithTop ℚ)).length := by simpa using h
  rw [List.getD_eq_getElem _ _ hlen]
  exact List.getElem_replicate _ hlen

/-- C5: for every non-empty front whose objective vectors all have
dimension `d`, `_calculate_crowding_distance` assigns `inf` for each
objective dimension `m < d` to an individual attaining the minimum and
to one attaining the maximum in that dimension (the first and last
entries of the code's stable sort by that dimension); and when the front
has at most two individuals every returned distance is `inf`. -/
theorem calculate_crowding_distance_extremes (objectives : List (List ℚ))
    (d : Nat) (hd : ∀ v ∈ objectives, v.length = d) (hne : objectives ≠ []) :
    (∀ m, m < d → ∃ i j, i < objectives.length ∧ j < objectives.length ∧
      (∀ l ∈ objectives, (objectives.getD i []).getD m 0 ≤ l.getD m 0) ∧
      (∀ l ∈ objectives, l.getD m 0 ≤ (objectives.getD j []).getD m 0) ∧
      (calculate_crowding_distance objectives).getD i 0 = ⊤ ∧
      (calculate_crowding_distance objectives).getD j 0 = ⊤) ∧
    (objectives.length ≤ 2 →
      ∀ x ∈ calculate_crowding_distance objectives, x = ⊤) := by
  have hnpos : 0 < objectives.length := List.length_pos.mpr hne
  constructor
  · intro m hm
    by_cases hsmall : objectives.length ≤ 2
    · have hres : calculate_crowding_distance objectives =
          List.replicate objectives.length ⊤ := by
        unfold calculate_crowding_distance
        dsimp only
        rw [if_pos hsmall]
      obtain ⟨i, hi, hmini⟩ :=
        exists_min_index (fun x => sortKey objectives m x) _ hnpos
      obtain ⟨j, hj, hmaxj⟩ :=
        exists_min_index (fun x => -sortKey objectives m x) _ hnpos
      refine ⟨i, j, hi, hj, ?_, ?_, ?_, ?_⟩
      · exact forall_getD_of_forall_lt objectives fun idx hidx => hmini idx hidx
      · refine forall_getD_of_forall_lt objectives fun idx hidx => ?_
        have hneg := hmaxj idx hidx
        exact neg_le_neg_iff.mp hneg
      · rw [hres]
        exact getD_replicate_top hi
      · rw [hres]
        exact getD_replicate_top hj
    · have hdobj : (objectives.getD 0 []).length = d := by
        rcases objectives with _ | ⟨v, tl⟩
        · exact absurd rfl hne
        · exact hd v (List.mem_cons_self v tl)
      have hres : calculate_crowding_distance objectives =
          (List.range d).foldl
            (fun distances m => crowdingPass objectives m distances)
            (List.replicate objectives.length (0 : WithTop ℚ)) := by
        unfold calculate_crowding_distance
        dsimp only
        rw [if_neg hsmall, hdobj]
      refine ⟨(sortedIndices objectives m).getD 0 0,
        (sortedIndices objectives m).getD (objectives.length - 1) 0,
        sortedIndices_getD_lt objectives m 0 hnpos,
        sortedIndices_getD_lt objectives m _ (Nat.sub_lt hnpos one_pos),
        ?_, ?_, ?_, ?_⟩
      · exact forall_getD_of_forall_lt objectives fun idx hidx =>
          sortedIndices_head_min objectives m idx hidx
      · exact forall_getD_of_forall_lt objectives fun idx hidx =>
          sortedIndices_last_max objectives m idx hidx
      · rw [hres]
        have hd2 : d = (m + 1) + (d - (m + 1)) := by omega
        rw [hd2, List.range_add, List.foldl_append, List.range_succ,
          List.foldl_append]
        simp only [List.foldl_cons, List.foldl_nil]
        apply foldl_pass_top
        exact (crowdingPass_boundary objectives m
          (by rw [foldl_pass_length, List.length_replicate]) hnpos).1
      · rw [hres]
        have hd2 : d = (m + 1) + (d - (m + 1)) := by omega
        rw [hd2, List.range_add, List.foldl_append, List.range_succ,
          List.foldl_append]
        simp only [List.foldl_cons, List.foldl_nil]
        apply foldl_pass_top
        exact (crowdingPass_boundary objectives m
          (by rw [foldl_pass_length, List.length_replicate]) hnpos).2
  · intro hsmall x hx
    have hres : calculate_crowding_distance objectives =
        List.replicate objectives.length ⊤ := by
      unfold calculate_crowding_distance
      dsimp only
      rw [if_pos hsmall]
    rw [hres] at hx
    exact List.eq_of_mem_replicate hx

/-- Witness for C5 at the concrete front `[[1], [2], [4]]` (dimension 1):
the extremes in dimension 0 get `inf` while the interior individual gets
the finite normalised gap `1`. -/
theorem calculate_crowding_distance_extremes_witness :
    (∃ i j, i < 3 ∧ j < 3 ∧
      (∀ l ∈ [[(1 : ℚ)], [2], [4]],
        (([[(1 : ℚ)], [2], [4]].getD i []).getD 0 0) ≤ l.getD 0 0) ∧
      (∀ l ∈ [[(1 : ℚ)], [2], [4]],
        l.getD 0 0 ≤ (([[(1 : ℚ)], [2], [4]].getD j []).getD 0 0)) ∧
      (calculate_crowding_distance [[(1 : ℚ)], [2], [4]]).getD i 0 = ⊤ ∧
      (calculate_crowding_distance [[(1 : ℚ)], [2], [4]]).getD j 0 = ⊤) :=
  ((calculate_crowding_distance_extremes [[(1 : ℚ)], [2], [4]] 1
    (by decide) (by decide)).1 0 Nat.zero_lt_one)

/-- A concrete `random` oracle (constant streams, identity shuffle) for
evaluating the model at specific inputs. -/
def trivialRandom : PyRandom where
  stream := fun _ => 0
  shuffled := fun _ l => l
  shuffled_perm := fun _ l => List.Perm.refl l
  gauss := fun _ => 0
  rfloat := fun _ => 0

/-- Witness for C9 at concrete one-entry parents: the first child
receives `(1 + 1) / 2` entries. -/
theorem crossover_spec_witness :
    (crossover ⟨[⟨1, 1, 0, 30, 100⟩]⟩ ⟨[⟨2, 2, 40, 80, 60⟩]⟩
      trivialRandom 0).1.1.schedules.length = (1 + 1) / 2 :=
  (crossover_spec ⟨[⟨1, 1, 0, 30, 100⟩]⟩ ⟨[⟨2, 2, 40, 80, 60⟩]⟩
    trivialRandom 0).2.1

/-- `_initialize_population(trains, routes, time_horizon)`: 50 random
individuals, each with `randint(10, 30)` trips of a random train, route,
departure slot (`hour * 60 + minute` of the current day) and passenger
load in `[50, train.capacity]`. -/
def initialize_population (trains : List Train) (routes : List Route)
    (time_horizon : Int) : Rand (List Individual) := do
  let mut population : List Individual := []
  for _ in List.range population_size do
    let mut schedules : List ScheduleEntry := []
    let num_trips ← randint 10 30
    for _ in List.range num_trips.toNat do
      let train ← choice trains
      let route ← choice routes
      let start_hour ← randint 0 (time_horizon - 2)
      let minute ← randint 0 59
      let departure_time := start_hour * 60 + minute
      let arrival_time := departure_time + route.estimated_travel_time
      let passenger_load ← randint 50 train.capacity
      schedules := schedules ++
        [⟨train.id, route.id, departure_time, arrival_time, passenger_load⟩]
    population := population ++ [⟨schedules⟩]
  return population

/-- The selection loop of `nsga2_optimization` (lines 78-92): whole
fronts are taken while they fit under `population_size`; the first front
that does not fit is trimmed to the `needed` individuals of greatest
crowding distance (`sorted(..., reverse=True)`, a stable descending
sort) and the loop breaks. -/
def selectLoop (population : List Individual)
    (objective_values : List (List ℚ)) :
    List (List Nat) → List Individual → List Individual
  | [], new_population => new_population
  | front :: rest, new_population =>
    if new_population.length + front.length ≤ population_size then
      selectLoop population objective_values rest
        (new_population ++ front.map fun i => population.getD i default)
    else
      let needed := population_size - new_population.length
      let front_objectives := front.map fun i => objective_values.getD i []
      let distances := calculate_crowding_distance front_objectives
      let sorted_indices := List.insertionSort
        (fun a b => distances.getD b 0 ≤ distances.getD a 0)
        (List.range front.length)
      new_population ++ (sorted_indices.take needed).map
        fun i => population.getD (front.getD i 0) default

/-- One generation of the evolution loop of `nsga2_optimization`
(lines 67-96): EVALUATE all individuals, SORT into fronts (which raises
`IndexError` for every non-empty population, see
`non_dominated_sort`), SELECT with crowding-distance trimming, and
append the offspring of the selected population. -/
def evolutionGeneration (trains : List Train) (routes : List Route)
    (population : List Individual) :
    Rand (Except String (List Individual)) := do
  let objective_values ← population.mapM fun ind =>
    evaluate_objectives ind trains routes
  match non_dominated_sort objective_values with
  | Except.error e => return Except.error e
  | Except.ok fronts =>
    let new_population := selectLoop population objective_values fronts []
    let offspring ← generate_offspring new_population
    return Except.ok (new_population ++ offspring)

/-- `for generation in range(self.generations)`: iterate
`evolutionGeneration`, propagating a raised exception. -/
def evolveLoop (trains : List Train) (routes : List Route) :
    Nat → List Individual → Rand (Except String (List Individual))
  | 0, population => pure (Except.ok population)
  | g + 1, population => do
    match ← evolutionGeneration trains routes population with
    | Except.error e => return Except.error e
    | Except.ok next => evolveLoop trains routes g next

/-- One formatted entry of `optimal_schedules` in
`_format_optimization_results` (`departure_time` / `arrival_time` stand
for the `.isoformat()` strings, as minutes). -/
structure OptimalSchedule where
  train_id : String
  route_name : String
  departure_time : Int
  arrival_time : Int
  passenger_load : Int
  capacity_utilization : ℚ
  deriving DecidableEq, Inhabited

/-- The result dict of `_format_optimization_results`; the three
`performance_improvements` percentages are kept as their sampled
rational values (the source renders them as one-decimal strings). -/
structure FormattedResults where
  fuel_consumption : ℚ
  on_time_performance : ℚ
  operational_costs : ℚ
  capacity_utilization : ℚ
  optimal_schedules : List OptimalSchedule
  estimated_fuel_savings : ℚ
  cost_reduction : ℚ
  efficiency_gain : ℚ
  recommendations : List String
  deriving DecidableEq, Inhabited

/-- The dict `nsga2_optimization` returns: either
`{"error": msg}` or the formatted report. -/
inductive ResultDict where
  | error (msg : String)
  | report (r : FormattedResults)
  deriving DecidableEq, Inhabited

/-- `sum(w * obj for w, obj in zip(weights, objectives[i]))`. -/
def weighted_sum (weights obj : List ℚ) : ℚ :=
  ((weights.zip obj).map fun p => p.1 * p.2).sum

/-- `min(range(len(objectives)), key=...)` of
`_format_optimization_results` with equal weights `[0.25] * 4`: the
first index of minimal weighted sum (Python's `min` keeps the first
minimum; the fold with a strict comparison does the same). -/
def best_index (objectives : List (List ℚ)) : Nat :=
  (List.range objectives.length).foldl
    (fun best i =>
      if weighted_sum [1/4, 1/4, 1/4, 1/4] (objectives.getD i []) <
          weighted_sum [1/4, 1/4, 1/4, 1/4] (objectives.getD best []) then i
      else best)
    0

/-- `_format_optimization_results(solutions, objectives, trains, routes)`;
`min` of an empty sequence raises `ValueError`. -/
def format_optimization_results (solutions : List Individual)
    (objectives : List (List ℚ)) (trains : List Train)
    (routes : List Route) : Rand (Except String ResultDict) := do
  if objectives = [] then
    return Except.error "ValueError"
  let best_solution := solutions.getD (best_index objectives) default
  let best_objectives := objectives.getD (best_index objectives) []
  let optimal_schedules := best_solution.schedules.map fun s =>
    ({ train_id :=
        match trainDictGet trains s.train_id with
        | some train => train.train_id
        | none => "Unknown"
       route_name :=
        match routeDictGet routes s.route_id with
        | some route => route.name
        | none => "Unknown"
       departure_time := s.departure_time
       arrival_time := s.arrival_time
       passenger_load := s.passenger_load
       capacity_utilization :=
        match trainDictGet trains s.train_id with
        | some train => (s.passenger_load : ℚ) / (train.capacity : ℚ) * 100
        | none => 0 } : OptimalSchedule)
  let estimated_fuel_savings ← uniform 10 25
  let cost_reduction ← uniform 15 30
  let efficiency_gain ← uniform 20 40
  return Except.ok (ResultDict.report
    { fuel_consumption := best_objectives.getD 0 0
      on_time_performance := -(best_objectives.getD 1 0)
      operational_costs := best_objectives.getD 2 0
      capacity_utilization := -(best_objectives.getD 3 0)
      optimal_schedules := optimal_schedules
      estimated_fuel_savings := estimated_fuel_savings
      cost_reduction := cost_reduction
      efficiency_gain := efficiency_gain
      recommendations := [
        "Implement dynamic scheduling based on real-time demand",
        "Optimize train assignments to minimize fuel consumption",
        "Improve maintenance scheduling to reduce operational costs",
        "Consider adding express services on high-demand routes"] })

/-- The body of `nsga2_optimization` after the data guard: initialize,
evolve for `generations` generations, re-evaluate, sort, and format
front 0. -/
def nsga2Evolve (trains : List Train) (routes : List Route)
    (time_horizon : Int) : Rand (Except String ResultDict) := do
  let population ← initialize_population trains routes time_horizon
  match ← evolveLoop trains routes generations population with
  | Except.error e => return Except.error e
  | Except.ok finalPop => do
    let final_objectives ← finalPop.mapM fun ind =>
      evaluate_objectives ind trains routes
    match non_dominated_sort final_objectives with
    | Except.error e => return Except.error e
    | Except.ok fronts =>
      let front0 := fronts.getD 0 []
      format_optimization_results
        (front0.map fun i => finalPop.getD i default)
        (front0.map fun i => final_objectives.getD i []) trains routes

/-- The `parameters` dict of `nsga2_optimization` (both `.get` keys;
`optimization_type` is extracted but never used). -/
structure Params where
  optimization_type : String
  time_horizon : Int
  deriving DecidableEq, Inhabited

/-- `nsga2_optimization(parameters)`: filter the operational trains and
active routes, return the `{"error": ...}` dict when either collection
is empty, and otherwise run the evolution. -/
def nsga2_optimization (allTrains : List Train) (allRoutes : List Route)
    (parameters : Params) : Rand (Except String ResultDict) :=
  let trains := allTrains.filter fun t => t.is_operational
  let routes := allRoutes.filter fun r => r.is_active
  if trains = [] ∨ routes = [] then
    pure (Except.ok
      (ResultDict.error "No available trains or routes for optimization"))
  else
    nsga2Evolve trains routes parameters.time_horizon

/-- C3: when the operational-train or active-route collection is empty,
`nsga2_optimization` returns exactly `{"error": "No available trains or
routes for optimization"}` as an ordinary result (not an exception), for
EVERY random oracle and with the random counter unchanged — i.e. no
population is initialized, evaluated or mutated before returning. -/
theorem nsga2_optimization_empty_guard (allTrains : List Train)
    (allRoutes : List Route) (parameters : Params) (g : PyRandom) (k : Nat)
    (h : allTrains.filter (fun t => t.is_operational) = [] ∨
      allRoutes.filter (fun r => r.is_active) = []) :
    nsga2_optimization allTrains allRoutes parameters g k =
      (Except.ok
        (ResultDict.error "No available trains or routes for optimization"),
        k) := by
  unfold nsga2_optimization
  rw [if_pos h]
  rfl

/-- Witness for C3: no trains at all (so no operational trains) and one
active route. -/
theorem nsga2_optimization_empty_guard_witness :
    nsga2_optimization [] [⟨1, "R1", 45, 30, true⟩]
      ⟨"multi_objective", 24⟩ trivialRandom 0 =
      (Except.ok
        (ResultDict.error "No available trains or routes for optimization"),
        0) :=
  nsga2_optimization_empty_guard [] [⟨1, "R1", 45, 30, true⟩]
    ⟨"multi_objective", 24⟩ trivialRandom 0 (Or.inl rfl)

/-- C4: the claim says every generation's EVALUATE sees a fixed
population of `population_size = 50`, with SELECT trimming to the cap
and REPRODUCE refilling.  In fact no generation ever completes: the SORT
step raises `IndexError` for every non-empty population (see C1), so
SELECT and REPRODUCE are never reached.  Evaluated here on a concrete
non-empty population (two individuals with empty schedules; the crash is
independent of the population's size). -/
theorem evolution_generation_raises_index_error :
    evolutionGeneration [⟨1, "T1", 200, 10, 2, true⟩]
      [⟨1, "R1", 45, 30, true⟩] [⟨[]⟩, ⟨[]⟩] trivialRandom 0 =
      (Except.error "IndexError", 0) := by
  rfl

end TrainOpt
